import Mathlib

/-!
Verification of the ESP32-S3 camera firmware's cooperative scheduler
("Cycle Manager") and its chunked photo/audio transmission protocol.

The definitions below are a shallow embedding of the C++ sources:
  * `src/firmware/src/system/clock/timing.cpp` (time helpers),
  * `src/firmware/src/utils/cycle_manager.h` and
    `src/firmware/src/system/cycles/cycle_manager.cpp` (the scheduler),
  * `src/firmware/src/system/cycles/comm_cycles.cpp` (photo transmission
    and connection monitor callbacks),
  * `src/firmware/src/camera/camera.cpp` (photo control),
  * `src/firmware/src/features/bluetooth/ble_data_handler.cpp` (audio
    transmission),
  * `src/firmware/src/platform/constants.h` (protocol constants).

`unsigned long` (32-bit on the ESP32) arithmetic is modelled on `Nat`
with explicit reduction modulo `2 ^ 32`.  Callbacks are modelled as
functions over an abstract world type `W`; a callback that throws in the
C++ (caught by `executeCycle`'s `catch (...)`) is modelled as returning
`Except.error` carrying the world as mutated before the throw.  The
scheduler is single-threaded and non-preemptive, so one `update()` pass
is modelled with a single time stamp `now`.
-/

namespace Esp32CamFw

/-! ## Timing utilities (`timing.cpp`) -/

/-- `2 ^ 32`, the modulus of `unsigned long` arithmetic on the ESP32-S3. -/
def U32 : Nat := 2 ^ 32

/-- Wrapping 32-bit subtraction `a - b`, as computed by unsigned C
arithmetic for inputs below `2 ^ 32`. -/
def sub32 (a b : Nat) : Nat := (a + (U32 - b % U32)) % U32

/-- `hasTimedOut(startTime, timeout)`: `(millis() - startTime) >= timeout`. -/
def hasTimedOut (now start timeout : Nat) : Bool :=
  decide (timeout ≤ sub32 now start)

/-- `getElapsedTime(startTime)`: `millis() - startTime`. -/
def getElapsedTime (now start : Nat) : Nat := sub32 now start

theorem sub32_eq_sub (a b : Nat) (hba : b ≤ a) (hlt : a - b < U32) (hb : b < U32) :
    sub32 a b = a - b := by
  unfold sub32
  rw [Nat.mod_eq_of_lt hb]
  have h1 : a + (U32 - b) = (a - b) + U32 := by omega
  rw [h1, Nat.add_mod_right, Nat.mod_eq_of_lt hlt]

/-! ## Cycle Manager data model (`cycle_manager.h`) -/

/-- `cycle_mode_t`. -/
inductive CycleMode where
  | interval
  | timeout
  | condition
  | pattern
  | circularBuffer
  | stateMachine
deriving DecidableEq, Repr

/-- `cycle_priority_t` (CRITICAL = 0 … BACKGROUND = 4). -/
inductive CyclePriority where
  | critical
  | high
  | normal
  | low
  | background
deriving DecidableEq, Repr

/-- The numeric value of a priority, as in the C enum. -/
def CyclePriority.toNat : CyclePriority → Nat
  | .critical => 0
  | .high => 1
  | .normal => 2
  | .low => 3
  | .background => 4

/-- `cycle_state_t`. -/
inductive CycleState where
  | inactive
  | active
  | paused
  | error
  | completed
deriving DecidableEq, Repr

/-- `pattern_step_t`. -/
structure PatternStep where
  duration_ms : Nat
  value : Nat
  active : Bool
deriving DecidableEq, Repr

/-- `cycle_config_t` over an abstract world `W` of callback-visible state.
`name = none` models a null `const char *`; `execute`/`condition`/`on_error`
model possibly-empty `std::function`s.  `execute` returns `Except.error w`
when the C++ callback throws (with `w` the world as mutated so far). -/
structure CycleConfig (W : Type) where
  name : Option String
  mode : CycleMode
  priority : CyclePriority
  interval_ms : Nat := 0
  timeout_ms : Nat := 0
  condition : Option (W → Bool) := none
  execute : Option (W → Except W W)
  on_error : Option (W → W) := none
  pattern : List PatternStep := []
  enabled : Bool
  one_shot : Bool

/-- `cycle_runtime_t`. -/
structure CycleRuntime where
  state : CycleState
  last_execution : Nat
  next_execution : Nat
  execution_count : Nat
  error_count : Nat
  total_execution_time : Nat
  max_execution_time : Nat
  pattern_step : Nat
  pattern_step_active : Bool
  pattern_step_start : Nat
deriving DecidableEq, Repr

/-- `cycle_t`. -/
structure Cycle (W : Type) where
  config : CycleConfig W
  runtime : CycleRuntime

/-- `MAX_CYCLES` (`cycle_manager.h`). -/
def MAX_CYCLES : Nat := 32

/-- The global scheduler state: `cycles[]`/`cycle_count` are modelled as a
list (only slots below `cycle_count` are semantically live), plus the
manager statistics. -/
structure CycleManager (W : Type) where
  cycles : List (Cycle W)
  managerInitialized : Bool
  total_cycles_executed : Nat
  total_execution_time : Nat
  last_manager_update : Nat

/-- The state after `initializeCycleManager()`: empty registry, zeroed
statistics. -/
def initialManager (W : Type) (now : Nat) : CycleManager W :=
  { cycles := []
    managerInitialized := true
    total_cycles_executed := 0
    total_execution_time := 0
    last_manager_update := now }

/-- The runtime record a fresh registration writes (`registerCycle`); the
statistics fields were zeroed by `initializeCycleManager` and slots are
never reused. -/
def mkRuntime {W : Type} (config : CycleConfig W) (now : Nat) : CycleRuntime :=
  { state := if config.enabled then .active else .inactive
    last_execution := now
    next_execution := now + config.interval_ms
    execution_count := 0
    error_count := 0
    total_execution_time := 0
    max_execution_time := 0
    pattern_step := 0
    pattern_step_active := false
    pattern_step_start := 0 }

/-- `registerCycle(config)`: returns the assigned id, or `-1` when the
manager is uninitialized, the table is full, or `name`/`execute` is
missing. -/
def registerCycle {W : Type} (now : Nat) (config : CycleConfig W)
    (m : CycleManager W) : Int × CycleManager W :=
  if m.managerInitialized = false then (-1, m)
  else if MAX_CYCLES ≤ m.cycles.length then (-1, m)
  else if config.name.isNone || config.execute.isNone then (-1, m)
  else (Int.ofNat m.cycles.length,
    { m with cycles := m.cycles ++ [⟨config, mkRuntime config now⟩] })

/-- `registerConditionCycle` (the convenience constructor; `config = {}`
zero-initializes every field not set explicitly). -/
def registerConditionCycle {W : Type} (now : Nat) (name : String)
    (cond : W → Bool) (exec : W → Except W W) (priority : CyclePriority)
    (m : CycleManager W) : Int × CycleManager W :=
  registerCycle now
    { name := some name
      mode := .condition
      priority := priority
      condition := some cond
      execute := some exec
      enabled := true
      one_shot := false } m

/-- `registerIntervalCycle`. -/
def registerIntervalCycle {W : Type} (now : Nat) (name : String)
    (interval_ms : Nat) (exec : W → Except W W) (priority : CyclePriority)
    (m : CycleManager W) : Int × CycleManager W :=
  registerCycle now
    { name := some name
      mode := .interval
      priority := priority
      interval_ms := interval_ms
      execute := some exec
      enabled := true
      one_shot := false } m

/-! ## Cycle execution (`cycle_manager.cpp`) -/

/-- `executeCycle(cycle, current_time)`.  Returns the updated cycle, the
updated world, and whether the callback returned normally (the `Bool`
drives `total_cycles_executed`).  A missing `execute` (empty
`std::function`) throws on call and is caught like any other throw. -/
def executeCycle {W : Type} (now : Nat) (c : Cycle W) (w : W) :
    Cycle W × W × Bool :=
  let onError : W → Cycle W × W × Bool := fun w1 =>
    ({ c with runtime := { c.runtime with
          error_count := c.runtime.error_count + 1
          state := .error } },
      (match c.config.on_error with
       | some h => h w1
       | none => w1), false)
  match c.config.execute with
  | none => onError w
  | some f =>
    match f w with
    | .error w1 => onError w1
    | .ok w1 =>
      let execution_time := sub32 now now
      ({ c with runtime := { c.runtime with
            execution_count := c.runtime.execution_count + 1
            last_execution := now
            total_execution_time := c.runtime.total_execution_time + execution_time
            max_execution_time :=
              if c.runtime.max_execution_time < execution_time then execution_time
              else c.runtime.max_execution_time
            state := if c.config.one_shot then .completed else c.runtime.state } },
        w1, true)

/-- A placeholder pattern step; the C++ reads `pattern[pattern_step]`
unchecked, and `pattern_step` stays below `pattern_length` whenever the
pattern is non-empty. -/
def defaultStep : PatternStep := ⟨0, 0, false⟩

/-- `updatePatternCycle(cycle, current_time)`: advances the step index when
the current step's duration has elapsed and reports whether the cycle
should fire this pass. -/
def updatePatternCycle {W : Type} (now : Nat) (c : Cycle W) : Bool × Cycle W :=
  if c.config.pattern.isEmpty then (false, c)
  else
    let step := c.config.pattern.getD c.runtime.pattern_step defaultStep
    let step_elapsed := getElapsedTime now c.runtime.pattern_step_start
    if step.duration_ms ≤ step_elapsed then
      let ns := (c.runtime.pattern_step + 1) % c.config.pattern.length
      (true, { c with runtime := { c.runtime with
          pattern_step := ns
          pattern_step_start := now
          pattern_step_active := (c.config.pattern.getD ns defaultStep).active } })
    else (false, c)

/-- One iteration of the inner loop of `updateCycles`: the cycle at index
`i` is considered for priority class `p`; it fires when its trigger
condition holds.  Returns the manager, the world, and whether the
callback was invoked. -/
def considerCycle {W : Type} (now p : Nat) (m : CycleManager W) (w : W)
    (i : Nat) : CycleManager W × W × Bool :=
  match m.cycles[i]? with
  | none => (m, w, false)
  | some c =>
    if c.config.priority.toNat ≠ p ∨ c.runtime.state ≠ .active ∨
        c.config.enabled = false then
      (m, w, false)
    else
      let fire : Cycle W → CycleManager W × W × Bool := fun c1 =>
        let r := executeCycle now c1 w
        ({ m with
            cycles := m.cycles.set i r.1
            total_cycles_executed :=
              if r.2.2 then m.total_cycles_executed + 1
              else m.total_cycles_executed },
          r.2.1, true)
      match c.config.mode with
      | .interval =>
          if hasTimedOut now c.runtime.last_execution c.config.interval_ms
          then fire c else (m, w, false)
      | .timeout =>
          if hasTimedOut now c.runtime.last_execution c.config.timeout_ms then
            fire (if c.config.one_shot then
                { c with runtime := { c.runtime with state := .completed } }
              else c)
          else (m, w, false)
      | .condition =>
          match c.config.condition with
          | some cond => if cond w then fire c else (m, w, false)
          | none => (m, w, false)
      | .pattern =>
          let r := updatePatternCycle now c
          if r.1 then fire r.2 else (m, w, false)
      | .circularBuffer => fire c
      | .stateMachine => fire c

/-- The inner index loop of `updateCycles` for one priority class,
recording the indices whose callbacks were invoked. -/
def passIndices {W : Type} (now p : Nat) :
    List Nat → CycleManager W → W → CycleManager W × W × List Nat
  | [], m, w => (m, w, [])
  | i :: rest, m, w =>
    let r := considerCycle now p m w i
    let rr := passIndices now p rest r.1 r.2.1
    (rr.1, rr.2.1, (if r.2.2 then [i] else []) ++ rr.2.2)

/-- One full sweep over the registry for priority class `p`. -/
def passPriority {W : Type} (now p : Nat) (m : CycleManager W) (w : W) :
    CycleManager W × W × List Nat :=
  passIndices now p (List.range m.cycles.length) m w

/-- The outer priority loop of `updateCycles`. -/
def runPasses {W : Type} (now : Nat) :
    List Nat → CycleManager W → W → CycleManager W × W × List Nat
  | [], m, w => (m, w, [])
  | p :: ps, m, w =>
    let r := passPriority now p m w
    let rr := runPasses now ps r.1 r.2.1
    (rr.1, rr.2.1, r.2.2 ++ rr.2.2)

/-- `updateCycles()`: walks the priority classes CRITICAL … BACKGROUND and
fires every eligible cycle, then updates the manager statistics.  The
returned list records, in execution order, the indices of the cycles
whose callbacks were invoked. -/
def updateCycles {W : Type} (now : Nat) (m : CycleManager W) (w : W) :
    CycleManager W × W × List Nat :=
  if m.managerInitialized = false then (m, w, [])
  else
    let r := runPasses now [0, 1, 2, 3, 4] m w
    ({ r.1 with
        total_execution_time := r.1.total_execution_time + sub32 now now
        last_manager_update := now },
      r.2.1, r.2.2)

/-! ## Accessors and mutators (`cycle_manager.cpp`) -/

/-- `setCycleEnabled(cycle_id, enabled)`. -/
def setCycleEnabled {W : Type} (cycle_id : Int) (enabled : Bool)
    (m : CycleManager W) : CycleManager W :=
  if cycle_id < 0 ∨ (m.cycles.length : Int) ≤ cycle_id then m
  else
    match m.cycles[cycle_id.toNat]? with
    | none => m
    | some c =>
      let c1 := { c with config := { c.config with enabled := enabled } }
      let c2 :=
        if enabled ∧ c.runtime.state = .inactive then
          { c1 with runtime := { c1.runtime with state := .active } }
        else if enabled = false then
          { c1 with runtime := { c1.runtime with state := .inactive } }
        else c1
      { m with cycles := m.cycles.set cycle_id.toNat c2 }

/-- `setCyclePaused(cycle_id, paused)`. -/
def setCyclePaused {W : Type} (cycle_id : Int) (paused : Bool)
    (m : CycleManager W) : CycleManager W :=
  if cycle_id < 0 ∨ (m.cycles.length : Int) ≤ cycle_id then m
  else
    match m.cycles[cycle_id.toNat]? with
    | none => m
    | some c =>
      if paused then
        let c1 := { c with runtime := { c.runtime with state := CycleState.paused } }
        { m with cycles := m.cycles.set cycle_id.toNat c1 }
      else if c.config.enabled then
        let c1 := { c with runtime := { c.runtime with state := CycleState.active } }
        { m with cycles := m.cycles.set cycle_id.toNat c1 }
      else m

/-- `getCycleState(cycle_id)`. -/
def getCycleState {W : Type} (cycle_id : Int) (m : CycleManager W) :
    CycleState :=
  if cycle_id < 0 ∨ (m.cycles.length : Int) ≤ cycle_id then .inactive
  else
    match m.cycles[cycle_id.toNat]? with
    | none => .inactive
    | some c => c.runtime.state

/-- `getCycleStats(cycle_id)`: `nullptr` becomes `none`. -/
def getCycleStats {W : Type} (cycle_id : Int) (m : CycleManager W) :
    Option CycleRuntime :=
  if cycle_id < 0 ∨ (m.cycles.length : Int) ≤ cycle_id then none
  else
    match m.cycles[cycle_id.toNat]? with
    | none => none
    | some c => some c.runtime

/-! ## Photo transmission session (`comm_cycles.cpp`, `constants.h`) -/

/-- `PHOTO_CHUNK_SIZE` (`constants.h`). -/
def PHOTO_CHUNK_SIZE : Nat := 400

/-- The session globals of `camera.cpp` read and written by the
DataTransmission callback: the frame buffer `fb` (its bytes), the
`photoDataUploading` flag, and the two counters. -/
structure PhotoTxState where
  fb : Option (List Nat)
  photoDataUploading : Bool
  sent_photo_bytes : Nat
  sent_photo_frames : Nat
deriving DecidableEq, Repr

/-- The idle session: no buffer, not uploading, counters zero. -/
def photoIdle : PhotoTxState := ⟨none, false, 0, 0⟩

/-- The 3-byte frame header `[frame_number_low, frame_number_high, 0x01]`. -/
def photoFrameHeader (seq : Nat) : List Nat := [seq % 256, seq / 256 % 256, 0x01]

/-- The photo End Marker `[0xFF, 0xFF, 0x01]`. -/
def photoEndMarker : List Nat := [0xFF, 0xFF, 0x01]

/-- The observable effect of one DataTransmission callback invocation:
the new session state, the `notifyPhotoData` frames sent (in order), and
the number of `esp_camera_fb_return` calls. -/
structure TxStepOut where
  state : PhotoTxState
  frames : List (List Nat)
  releases : Nat
deriving DecidableEq, Repr

/-- The condition of the `DataTransmission` Cycle:
`photoDataUploading && fb && isConnected()`. -/
def dataTransmissionCond (connected : Bool) (s : PhotoTxState) : Bool :=
  s.photoDataUploading && s.fb.isSome && connected

/-- The `DataTransmission` callback (`registerDataTransmissionCycle`):
one chunk-send step, the End Marker on completion, and the `!fb ||
!isConnected()` bail-out guard. -/
def dataTransmissionExec (connected : Bool) (s : PhotoTxState) : TxStepOut :=
  match s.fb with
  | none =>
    ⟨{ s with photoDataUploading := false, sent_photo_bytes := 0,
              sent_photo_frames := 0 }, [], 0⟩
  | some buf =>
    if connected = false then
      ⟨{ s with photoDataUploading := false, sent_photo_bytes := 0,
                sent_photo_frames := 0 }, [], 0⟩
    else
      let remaining := buf.length - s.sent_photo_bytes
      if 0 < remaining then
        let chunk_size := min remaining PHOTO_CHUNK_SIZE
        let frame := photoFrameHeader s.sent_photo_frames ++
          (buf.drop s.sent_photo_bytes).take chunk_size
        ⟨{ s with sent_photo_bytes := s.sent_photo_bytes + chunk_size,
                  sent_photo_frames := s.sent_photo_frames + 1 },
          [frame], 0⟩
      else
        ⟨photoIdle, [photoEndMarker], 1⟩

/-- `n` consecutive DataTransmission callback invocations, accumulating
the frames sent and the buffer releases. -/
def runTx (connected : Bool) : Nat → PhotoTxState → TxStepOut
  | 0, s => ⟨s, [], 0⟩
  | n + 1, s =>
    let o := dataTransmissionExec connected s
    let rest := runTx connected n o.state
    ⟨rest.state, o.frames ++ rest.frames, o.releases + rest.releases⟩

/-- The observable effect of one ConnectionMonitor callback invocation
(LED calls are external and not modelled): the new session state, the new
value of the callback's `lastConnected` static, frames sent (always
none), and buffer releases. -/
structure MonStepOut where
  state : PhotoTxState
  lastConnected : Bool
  frames : List (List Nat)
  releases : Nat
deriving DecidableEq, Repr

/-- The `ConnectionMonitor` callback (`registerConnectionMonitorCycle`):
on a connected→disconnected edge with an upload in flight it releases the
buffer, clears the flag and zeroes the counters; it never sends a
frame. -/
def connectionMonitorExec (connected lastConnected : Bool)
    (s : PhotoTxState) : MonStepOut :=
  if connected = lastConnected then ⟨s, lastConnected, [], 0⟩
  else if connected then ⟨s, connected, [], 0⟩
  else if s.photoDataUploading then
    ⟨photoIdle, connected, [], if s.fb.isSome then 1 else 0⟩
  else ⟨s, connected, [], 0⟩

/-- The session states reachable through the system's own transitions:
boot, a DataTransmission step fired under its condition, arming a new
session after a successful capture (`PhotoCapture` only fires when
`photoDataUploading` is false and `take_photo` requires `fb->len > 0`), a
failed capture, and a ConnectionMonitor invocation on a lost link. -/
inductive PhotoReach : PhotoTxState → Prop where
  | init : PhotoReach photoIdle
  | tx {s : PhotoTxState} (c : Bool) (h : PhotoReach s)
      (hc : dataTransmissionCond c s = true) :
      PhotoReach (dataTransmissionExec c s).state
  | arm {s : PhotoTxState} (buf : List Nat) (h : PhotoReach s)
      (hup : s.photoDataUploading = false) (hbuf : buf ≠ []) :
      PhotoReach { s with fb := some buf, photoDataUploading := true }
  | captureFail {s : PhotoTxState} (h : PhotoReach s)
      (hup : s.photoDataUploading = false) :
      PhotoReach { s with fb := none }
  | monitor {s : PhotoTxState} (lastC : Bool) (h : PhotoReach s) :
      PhotoReach (connectionMonitorExec false lastC s).state

/-! ## Photo control (`camera.cpp`, `data_cycles.cpp`, `constants.h`) -/

/-- `PHOTO_SINGLE_SHOT` (`constants.h`). -/
def PHOTO_SINGLE_SHOT : Int := -1

/-- `PHOTO_STOP` (`constants.h`). -/
def PHOTO_STOP : Int := 0

/-- `PHOTO_MIN_INTERVAL` (`constants.h`). -/
def PHOTO_MIN_INTERVAL : Int := 5

/-- `PHOTO_MAX_INTERVAL` (`constants.h`). -/
def PHOTO_MAX_INTERVAL : Int := 300

/-- The camera-module globals consulted by `handlePhotoControl` and the
`PhotoCapture` cycle, with the transmission-session globals nested. -/
structure CamState where
  deviceReady : Bool
  isCapturingPhotos : Bool
  captureInterval : Int
  lastCaptureTime : Nat
  tx : PhotoTxState
deriving Repr

/-- `handlePhotoControl(controlValue)` (`camera.cpp`). -/
def handlePhotoControl (now : Nat) (controlValue : Int) (s : CamState) :
    CamState :=
  if s.deviceReady = false then s
  else if controlValue = PHOTO_SINGLE_SHOT then
    if s.tx.photoDataUploading = false then
      { s with isCapturingPhotos := true, captureInterval := 0 }
    else s
  else if controlValue = PHOTO_STOP then
    { s with isCapturingPhotos := false, captureInterval := 0 }
  else if PHOTO_MIN_INTERVAL ≤ controlValue ∧ controlValue ≤ PHOTO_MAX_INTERVAL then
    if s.tx.photoDataUploading = false then
      let ci := controlValue / PHOTO_MIN_INTERVAL * (PHOTO_MIN_INTERVAL * 1000)
      { s with captureInterval := ci
               isCapturingPhotos := true
               lastCaptureTime := sub32 now ci.toNat }
    else s
  else s

/-- The condition of the `PhotoCapture` cycle (`DataCycles::registerPhotoCycle`). -/
def photoCaptureCond (now : Nat) (connected : Bool) (s : CamState) : Bool :=
  if s.deviceReady = false || connected = false || s.tx.photoDataUploading then
    false
  else
    s.isCapturingPhotos &&
      (decide (s.captureInterval = 0) ||
        decide ((s.captureInterval * 1000).toNat ≤
          getElapsedTime now s.lastCaptureTime))

/-! ## Audio transmission (`ble_data_handler.cpp`) -/

/-- The 3-byte audio frame header
`[audioFrameCount & 0xFF, (audioFrameCount >> 8) & 0xFF, 0]`. -/
def audioFrameHeader (count : Nat) : List Nat := [count % 256, count / 256 % 256, 0]

/-- The observable effect of one `transmitAudioData` call: the
`notifyAudioData` notifications sent and the new `audioFrameCount`
(a `uint16_t`). -/
structure AudioTxOut where
  notifications : List (List Nat)
  audioFrameCount : Nat
deriving DecidableEq, Repr

/-- `transmitAudioData` (`ble_data_handler.cpp`): the codec
(`prepareAudioFrame`) is an external collaborator, so the encoded payload
it produced is taken as input; an empty payload covers both
`bytesRecorded == 0` and `encodedBytes <= 0`.  The whole encoded frame is
sent as one notification behind one 3-byte header; there is no splitting
against any transport limit. -/
def transmitAudioData (bleConnected : Bool) (audioFrameCount : Nat)
    (encodedPayload : List Nat) : AudioTxOut :=
  if bleConnected = false || encodedPayload.isEmpty then
    ⟨[], audioFrameCount⟩
  else
    ⟨[audioFrameHeader audioFrameCount ++ encodedPayload],
      (audioFrameCount + 1) % 65536⟩

/-! ## Derived helpers over the scheduler -/

/-- Registering a list of configurations in order, collecting the returned
ids. -/
def registerAll {W : Type} (now : Nat) :
    List (CycleConfig W) → CycleManager W → List Int × CycleManager W
  | [], m => ([], m)
  | c :: rest, m =>
    let r := registerCycle now c m
    let rr := registerAll now rest r.2
    (r.1 :: rr.1, rr.2)

/-- The registry slot at index `i`. -/
def cycleAt {W : Type} (m : CycleManager W) (i : Nat) : Option (Cycle W) :=
  m.cycles[i]?

/-- The numeric priority of the cycle at index `i`. -/
def prioAt {W : Type} (m : CycleManager W) (i : Nat) : Option Nat :=
  (cycleAt m i).map fun c => c.config.priority.toNat

/-- The strict order in which one `update()` pass runs callbacks: a cycle
in an earlier (more urgent) priority class runs before one in a later
class, and within one class the earlier registration id runs first. -/
def ExecBefore {W : Type} (m : CycleManager W) (i j : Nat) : Prop :=
  ∃ pi pj, prioAt m i = some pi ∧ prioAt m j = some pj ∧
    (pi < pj ∨ (pi = pj ∧ i < j))

/-! ## Concrete instances used by the witnesses and counterexamples -/

/-- A valid configuration (non-null name and execute) over a trivial
world. -/
def plainCfg : CycleConfig Unit :=
  { name := some "c"
    mode := .interval
    priority := .normal
    execute := some fun w => .ok w
    enabled := true
    one_shot := false }

/-- A condition cycle whose callback always signals an error (throws) and
whose error handler bumps a counter world. -/
def failingCfg : CycleConfig Nat :=
  { name := some "Failing"
    mode := .condition
    priority := .normal
    condition := some fun _ => true
    execute := some fun w => .error w
    on_error := some fun w => w + 1
    enabled := true
    one_shot := false }

/-- A manager holding only the always-erroring condition cycle. -/
def failingMgr : CycleManager Nat :=
  (registerCycle 0 failingCfg (initialManager Nat 0)).2

/-- The always-erroring cycle as registered. -/
def failingCycle : Cycle Nat := ⟨failingCfg, mkRuntime failingCfg 0⟩

/-- A pattern cycle with a single 100 ms step. -/
def patternCfg : CycleConfig Unit :=
  { name := some "Pattern"
    mode := .pattern
    priority := .critical
    pattern := [⟨100, 1, true⟩]
    execute := some fun w => .ok w
    enabled := true
    one_shot := false }

/-- A manager holding only the pattern cycle. -/
def patternMgr : CycleManager Unit :=
  (registerCycle 0 patternCfg (initialManager Unit 0)).2

/-- The pattern cycle as registered. -/
def patternCycle : Cycle Unit := ⟨patternCfg, mkRuntime patternCfg 0⟩

/-- A concrete 1000-byte photo buffer. -/
def photoBuf1000 : List Nat := List.replicate 1000 9

/-- A concrete 1000-byte encoded audio frame. -/
def audioFrame1000 : List Nat := List.replicate 1000 7

/-! # Theorems -/

/-- C10: for every id that is negative or not below `cycle_count`, the
accessors are total and side-effect free: `getCycleState` returns
Inactive, `getCycleStats` returns `none`, and `setCycleEnabled` /
`setCyclePaused` leave the manager unchanged (the C++ guards return
before any table access, so no out-of-range index is dereferenced). -/
theorem C10_out_of_range_accessors {W : Type} (m : CycleManager W)
    (cycle_id : Int) (b p : Bool)
    (h : cycle_id < 0 ∨ (m.cycles.length : Int) ≤ cycle_id) :
    getCycleState cycle_id m = .inactive
    ∧ getCycleStats cycle_id m = none
    ∧ setCycleEnabled cycle_id b m = m
    ∧ setCyclePaused cycle_id p m = m := by
  refine ⟨?_, ?_, ?_, ?_⟩
  · unfold getCycleState
    rw [if_pos h]
  · unfold getCycleStats
    rw [if_pos h]
  · unfold setCycleEnabled
    rw [if_pos h]
  · unfold setCyclePaused
    rw [if_pos h]

/-- C10 witness: the accessors on an empty initialized manager with
id 5. -/
theorem C10_out_of_range_accessors_witness :
    getCycleState 5 (initialManager Unit 0) = .inactive
    ∧ getCycleStats 5 (initialManager Unit 0) = none
    ∧ setCycleEnabled 5 true (initialManager Unit 0) = initialManager Unit 0
    ∧ setCyclePaused 5 true (initialManager Unit 0) = initialManager Unit 0 :=
  C10_out_of_range_accessors (initialManager Unit 0) 5 true true
    (Or.inr (by simp [initialManager]))

/-- C4: while a photo session is active (`photoDataUploading` true),
`handlePhotoControl` never touches the session state for any control
value; a single-shot or in-range interval command leaves the whole
camera state unchanged; and the `PhotoCapture` cycle's condition
evaluates to false, so its callback cannot fire (single-flight). -/
theorem C4_single_flight (now : Nat) (cv : Int) (connected : Bool)
    (s : CamState) (hup : s.tx.photoDataUploading = true) :
    (handlePhotoControl now cv s).tx = s.tx
    ∧ ((cv = PHOTO_SINGLE_SHOT ∨
        (PHOTO_MIN_INTERVAL ≤ cv ∧ cv ≤ PHOTO_MAX_INTERVAL)) →
        handlePhotoControl now cv s = s)
    ∧ photoCaptureCond now connected s = false := by
  refine ⟨?_, ?_, ?_⟩
  · unfold handlePhotoControl
    split_ifs <;> simp_all
  · intro hcv
    unfold handlePhotoControl
    rcases hcv with h1 | h2 <;> split_ifs <;> simp_all [PHOTO_SINGLE_SHOT,
      PHOTO_STOP, PHOTO_MIN_INTERVAL, PHOTO_MAX_INTERVAL]
  · unfold photoCaptureCond
    simp [hup]

/-- C4 witness: an interval command (value 10) and a single-shot command
are both rejected while a 2-byte upload is in flight. -/
theorem C4_single_flight_witness :
    (handlePhotoControl 0 10
        ⟨true, false, 0, 0, ⟨some [1, 2], true, 0, 0⟩⟩).tx =
      (⟨some [1, 2], true, 0, 0⟩ : PhotoTxState)
    ∧ ((10 : Int) = PHOTO_SINGLE_SHOT ∨
        (PHOTO_MIN_INTERVAL ≤ (10 : Int) ∧ (10 : Int) ≤ PHOTO_MAX_INTERVAL) →
        handlePhotoControl 0 10 ⟨true, false, 0, 0, ⟨some [1, 2], true, 0, 0⟩⟩ =
          ⟨true, false, 0, 0, ⟨some [1, 2], true, 0, 0⟩⟩)
    ∧ photoCaptureCond 0 true ⟨true, false, 0, 0, ⟨some [1, 2], true, 0, 0⟩⟩ =
        false :=
  C4_single_flight 0 10 true ⟨true, false, 0, 0, ⟨some [1, 2], true, 0, 0⟩⟩ rfl

/-- C5: with an upload in flight and a buffer held, a link-loss edge seen
by the ConnectionMonitor releases the buffer exactly once, zeroes
`sent_photo_bytes`/`sent_photo_frames`, clears `photoDataUploading`, and
sends no frame (so no End Marker); the DataTransmission condition is
false while disconnected, its bail-out guard sends nothing and releases
nothing, and a further monitor invocation changes nothing (no double
release). -/
theorem C5_abort_releases_once (s : PhotoTxState) (buf : List Nat) (c : Bool)
    (hfb : s.fb = some buf) (hup : s.photoDataUploading = true) :
    connectionMonitorExec false true s = ⟨photoIdle, false, [], 1⟩
    ∧ dataTransmissionCond false s = false
    ∧ (dataTransmissionExec false s).frames = []
    ∧ (dataTransmissionExec false s).releases = 0
    ∧ connectionMonitorExec false false photoIdle = ⟨photoIdle, false, [], 0⟩
    ∧ dataTransmissionCond c photoIdle = false := by
  refine ⟨?_, ?_, ?_, ?_, ?_, ?_⟩
  · unfold connectionMonitorExec
    simp [hup, hfb]
  · unfold dataTransmissionCond
    simp
  · unfold dataTransmissionExec
    rw [hfb]
    simp
  · unfold dataTransmissionExec
    rw [hfb]
    simp
  · rfl
  · unfold dataTransmissionCond photoIdle
    simp

/-- C5 witness: the abort scenario of the claim, 200 of 1000 bytes sent
when the link drops. -/
theorem C5_abort_releases_once_witness :
    connectionMonitorExec false true ⟨some photoBuf1000, true, 200, 1⟩ =
      ⟨photoIdle, false, [], 1⟩
    ∧ dataTransmissionCond false (⟨some photoBuf1000, true, 200, 1⟩ : PhotoTxState) = false
    ∧ (dataTransmissionExec false ⟨some photoBuf1000, true, 200, 1⟩).frames = []
    ∧ (dataTransmissionExec false ⟨some photoBuf1000, true, 200, 1⟩).releases = 0
    ∧ connectionMonitorExec false false photoIdle = ⟨photoIdle, false, [], 0⟩
    ∧ dataTransmissionCond true photoIdle = false :=
  C5_abort_releases_once ⟨some photoBuf1000, true, 200, 1⟩ photoBuf1000 true rfl rfl

/-- C9 counterexample: on a 1000-byte encoded audio frame the transmit
path sends exactly one notification — the 3-byte header followed by the
whole frame — not the three micro-header sub-chunks the claim
describes. -/
theorem C9_counterexample :
    (transmitAudioData true 0 audioFrame1000).notifications.length = 1
    ∧ (transmitAudioData true 0 audioFrame1000).notifications.length ≠ 3
    ∧ (transmitAudioData true 0 audioFrame1000).notifications =
        [[0, 0, 0] ++ audioFrame1000] := by
  exact ⟨rfl, by decide, rfl⟩

/-- C9 (amended): the audio transmit path performs no sub-chunk split
against any transport limit; a non-empty encoded frame is sent as a
single notification `[count & 0xFF, (count >> 8) & 0xFF, 0] ++ payload`,
and the 16-bit frame counter increments (wrapping); when disconnected
nothing is sent. -/
theorem C9_audio_single_notification (count : Nat) (payload : List Nat)
    (h : payload ≠ []) :
    transmitAudioData true count payload =
      ⟨[[count % 256, count / 256 % 256, 0] ++ payload], (count + 1) % 65536⟩
    ∧ transmitAudioData false count payload = ⟨[], count⟩ := by
  constructor
  · unfold transmitAudioData audioFrameHeader
    simp [h]
  · rfl

/-- C9 witness: a 1000-byte frame at counter 0. -/
theorem C9_audio_single_notification_witness :
    transmitAudioData true 0 audioFrame1000 =
      ⟨[[0 % 256, 0 / 256 % 256, 0] ++ audioFrame1000], (0 + 1) % 65536⟩
    ∧ transmitAudioData false 0 audioFrame1000 = ⟨[], 0⟩ :=
  C9_audio_single_notification 0 audioFrame1000 (by decide)

theorem runTx_zero (c : Bool) (s : PhotoTxState) : runTx c 0 s = ⟨s, [], 0⟩ :=
  rfl

theorem runTx_succ (c : Bool) (n : Nat) (s : PhotoTxState) :
    runTx c (n + 1) s =
      ⟨(runTx c n (dataTransmissionExec c s).state).state,
        (dataTransmissionExec c s).frames ++
          (runTx c n (dataTransmissionExec c s).state).frames,
        (dataTransmissionExec c s).releases +
          (runTx c n (dataTransmissionExec c s).state).releases⟩ :=
  rfl

theorem dataTransmissionExec_sending (buf : List Nat) (b k : Nat)
    (hlt : b < buf.length) :
    dataTransmissionExec true ⟨some buf, true, b, k⟩ =
      ⟨⟨some buf, true, b + min (buf.length - b) PHOTO_CHUNK_SIZE, k + 1⟩,
        [photoFrameHeader k ++ (buf.drop b).take (min (buf.length - b) PHOTO_CHUNK_SIZE)],
        0⟩ := by
  unfold dataTransmissionExec
  simp [Nat.sub_pos_of_lt hlt]

/-- C2: over any 1000-byte buffer with `PHOTO_CHUNK_SIZE = 400`, four
DataTransmission steps under a ready sink send data frames with payloads
of 400, 400 and 200 bytes copied from offsets 0, 400 and 800, each behind
the 3-byte header `[seq_lo, seq_hi, 0x01]`, with `sent_photo_bytes`
progressing 400, 800, 1000, then exactly one End Marker `[0xFF, 0xFF,
0x01]` — 4 frames in total — after which the buffer is released and the
session is idle. -/
theorem C2_chunking_1000 (buf : List Nat) (h : buf.length = 1000) :
    runTx true 4 ⟨some buf, true, 0, 0⟩ =
      ⟨photoIdle,
        [[0, 0, 1] ++ buf.take 400,
          [1, 0, 1] ++ (buf.drop 400).take 400,
          [2, 0, 1] ++ (buf.drop 800).take 200,
          [0xFF, 0xFF, 0x01]], 1⟩
    ∧ (buf.take 400).length = 400
    ∧ ((buf.drop 400).take 400).length = 400
    ∧ ((buf.drop 800).take 200).length = 200
    ∧ (runTx true 1 ⟨some buf, true, 0, 0⟩).state.sent_photo_bytes = 400
    ∧ (runTx true 2 ⟨some buf, true, 0, 0⟩).state.sent_photo_bytes = 800
    ∧ (runTx true 3 ⟨some buf, true, 0, 0⟩).state.sent_photo_bytes = 1000
    ∧ (runTx true 4 ⟨some buf, true, 0, 0⟩).frames.length = 4
    ∧ (∀ k, k ≤ 3 →
        dataTransmissionCond true (runTx true k ⟨some buf, true, 0, 0⟩).state = true)
    ∧ dataTransmissionCond true (runTx true 4 ⟨some buf, true, 0, 0⟩).state = false := by
  have e0 : dataTransmissionExec true ⟨some buf, true, 0, 0⟩ =
      ⟨⟨some buf, true, 400, 1⟩, [[0, 0, 1] ++ buf.take 400], 0⟩ := by
    rw [dataTransmissionExec_sending buf 0 0 (by omega)]
    simp [h, PHOTO_CHUNK_SIZE, photoFrameHeader]
  have e1 : dataTransmissionExec true ⟨some buf, true, 400, 1⟩ =
      ⟨⟨some buf, true, 800, 2⟩, [[1, 0, 1] ++ (buf.drop 400).take 400], 0⟩ := by
    rw [dataTransmissionExec_sending buf 400 1 (by omega)]
    simp [h, PHOTO_CHUNK_SIZE, photoFrameHeader]
  have e2 : dataTransmissionExec true ⟨some buf, true, 800, 2⟩ =
      ⟨⟨some buf, true, 1000, 3⟩, [[2, 0, 1] ++ (buf.drop 800).take 200], 0⟩ := by
    rw [dataTransmissionExec_sending buf 800 2 (by omega)]
    simp [h, PHOTO_CHUNK_SIZE, photoFrameHeader]
  have e3 : dataTransmissionExec true ⟨some buf, true, 1000, 3⟩ =
      ⟨photoIdle, [photoEndMarker], 1⟩ := by
    unfold dataTransmissionExec
    simp [h]
  refine ⟨?_, ?_, ?_, ?_, ?_, ?_, ?_, ?_, ?_, ?_⟩
  · simp only [runTx_succ, runTx_zero, e0, e1, e2, e3]
    rfl
  · simp [List.length_take, h]
  · simp [List.length_take, List.length_drop, h]
  · simp [List.length_take, List.length_drop, h]
  · simp only [runTx_succ, runTx_zero, e0, e1, e2, e3]
  · simp only [runTx_succ, runTx_zero, e0, e1, e2, e3]
  · simp only [runTx_succ, runTx_zero, e0, e1, e2, e3]
  · simp only [runTx_succ, runTx_zero, e0, e1, e2, e3]
    rfl
  · intro k hk
    interval_cases k <;> simp only [runTx_succ, runTx_zero, e0, e1, e2, e3] <;> rfl
  · simp only [runTx_succ, runTx_zero, e0, e1, e2, e3]
    rfl

/-- C2 witness: a concrete 1000-byte buffer. -/
theorem C2_chunking_1000_witness :
    runTx true 4 ⟨some photoBuf1000, true, 0, 0⟩ =
      ⟨photoIdle,
        [[0, 0, 1] ++ photoBuf1000.take 400,
          [1, 0, 1] ++ (photoBuf1000.drop 400).take 400,
          [2, 0, 1] ++ (photoBuf1000.drop 800).take 200,
          [0xFF, 0xFF, 0x01]], 1⟩
    ∧ (photoBuf1000.take 400).length = 400
    ∧ ((photoBuf1000.drop 400).take 400).length = 400
    ∧ ((photoBuf1000.drop 800).take 200).length = 200
    ∧ (runTx true 1 ⟨some photoBuf1000, true, 0, 0⟩).state.sent_photo_bytes = 400
    ∧ (runTx true 2 ⟨some photoBuf1000, true, 0, 0⟩).state.sent_photo_bytes = 800
    ∧ (runTx true 3 ⟨some photoBuf1000, true, 0, 0⟩).state.sent_photo_bytes = 1000
    ∧ (runTx true 4 ⟨some photoBuf1000, true, 0, 0⟩).frames.length = 4
    ∧ (∀ k, k ≤ 3 →
        dataTransmissionCond true
          (runTx true k ⟨some photoBuf1000, true, 0, 0⟩).state = true)
    ∧ dataTransmissionCond true
        (runTx true 4 ⟨some photoBuf1000, true, 0, 0⟩).state = false :=
  C2_chunking_1000 photoBuf1000 (by exact List.length_replicate ..)

theorem dataTransmissionExec_complete (buf : List Nat) (b k : Nat)
    (hge : buf.length ≤ b) :
    dataTransmissionExec true ⟨some buf, true, b, k⟩ =
      ⟨photoIdle, [photoEndMarker], 1⟩ := by
  unfold dataTransmissionExec
  simp [Nat.sub_eq_zero_of_le hge]

theorem photoReach_inv (s : PhotoTxState) (hs : PhotoReach s) :
    (s.photoDataUploading = false → s.sent_photo_bytes = 0)
    ∧ ∀ buf, s.fb = some buf → s.sent_photo_bytes ≤ buf.length := by
  induction hs with
  | init => simp [photoIdle]
  | @tx s c h hc ih =>
    obtain ⟨ih1, ih2⟩ := ih
    have hcc : (s.photoDataUploading = true ∧ s.fb.isSome = true) ∧ c = true := by
      unfold dataTransmissionCond at hc
      simpa using hc
    obtain ⟨⟨hup, hsome⟩, hc1⟩ := hcc
    subst hc1
    obtain ⟨buf0, hbuf0⟩ := Option.isSome_iff_exists.mp hsome
    have hle := ih2 buf0 hbuf0
    obtain ⟨fb, up, b, k⟩ := s
    dsimp only at hup hbuf0 hle
    subst hup
    subst hbuf0
    by_cases hlt : b < buf0.length
    · rw [dataTransmissionExec_sending buf0 b k hlt]
      refine ⟨by simp, ?_⟩
      intro buf hbuf
      have hb1 : buf0 = buf := by simpa using hbuf
      subst hb1
      have hmin := Nat.min_le_left (buf0.length - b) PHOTO_CHUNK_SIZE
      dsimp only
      omega
    · rw [dataTransmissionExec_complete buf0 b k (by omega)]
      simp [photoIdle]
  | @arm s buf h hup hbuf ih =>
    obtain ⟨ih1, ih2⟩ := ih
    constructor
    · intro hfalse
      simp at hfalse
    · intro b hb
      have hb1 : buf = b := by simpa using hb
      subst hb1
      simp [ih1 hup]
  | @captureFail s h hup ih =>
    obtain ⟨ih1, ih2⟩ := ih
    exact ⟨fun _ => ih1 hup, by intro b hb; simp at hb⟩
  | @monitor s lastC h ih =>
    obtain ⟨ih1, ih2⟩ := ih
    unfold connectionMonitorExec
    split_ifs <;>
      first
        | exact ⟨fun hh => ih1 hh, fun b hb => ih2 b hb⟩
        | exact ⟨fun hh => rfl, fun b hb => by simp [photoIdle] at hb⟩

/-- C3: in every reachable session state `sent_photo_bytes` never exceeds
the buffer length, and once `sent_photo_bytes` equals the buffer length
the next DataTransmission step under a ready sink sends exactly one End
Marker, releases the buffer once, zeroes both counters and returns the
session to idle (`photoDataUploading = false`). -/
theorem C3_bytes_sent_invariant (s : PhotoTxState) (hs : PhotoReach s) :
    (∀ buf, s.fb = some buf → s.sent_photo_bytes ≤ buf.length)
    ∧ (∀ buf, s.fb = some buf → s.sent_photo_bytes = buf.length →
        dataTransmissionExec true s = ⟨photoIdle, [photoEndMarker], 1⟩) := by
  refine ⟨(photoReach_inv s hs).2, ?_⟩
  intro buf hbuf heq
  unfold dataTransmissionExec
  rw [hbuf]
  simp [heq]

/-- C3 witness: the reachable state holding a fully-sent 1-byte buffer. -/
theorem C3_bytes_sent_invariant_witness :
    (∀ buf, (⟨some [7], true, 1, 1⟩ : PhotoTxState).fb = some buf →
      (⟨some [7], true, 1, 1⟩ : PhotoTxState).sent_photo_bytes ≤ buf.length)
    ∧ (∀ buf, (⟨some [7], true, 1, 1⟩ : PhotoTxState).fb = some buf →
        (⟨some [7], true, 1, 1⟩ : PhotoTxState).sent_photo_bytes = buf.length →
        dataTransmissionExec true ⟨some [7], true, 1, 1⟩ =
          ⟨photoIdle, [photoEndMarker], 1⟩) :=
  C3_bytes_sent_invariant ⟨some [7], true, 1, 1⟩
    (by
      have h1 : PhotoReach ⟨some [7], true, 0, 0⟩ :=
        PhotoReach.arm [7] PhotoReach.init rfl (by simp)
      exact PhotoReach.tx true h1 (by decide))

theorem executeCycle_config {W : Type} (now : Nat) (c : Cycle W) (w : W) :
    (executeCycle now c w).1.config = c.config := by
  unfold executeCycle
  rcases hx : c.config.execute with _ | f
  · rfl
  · rcases hfw : f w with w1 | w1 <;> simp [hfw]

theorem updatePatternCycle_config {W : Type} (now : Nat) (c : Cycle W) :
    (updatePatternCycle now c).2.config = c.config := by
  unfold updatePatternCycle
  by_cases h1 : c.config.pattern.isEmpty
  · rw [if_pos h1]
  · rw [if_neg h1]
    dsimp only
    split_ifs <;> rfl

/-- Everything `considerCycle` can do: either it skips (no change, not
fired), or the cycle at `i` was eligible — priority `p`, Active,
enabled — its callback fired, and only slot `i` of the registry was
rewritten, preserving its configuration. -/
theorem considerCycle_cases {W : Type} (now p : Nat) (m : CycleManager W)
    (w : W) (i : Nat) :
    ((considerCycle now p m w i).1 = m ∧ (considerCycle now p m w i).2.1 = w ∧
      (considerCycle now p m w i).2.2 = false)
    ∨ (∃ c c1, cycleAt m i = some c ∧
        c.config.priority.toNat = p ∧ c.runtime.state = .active ∧
        c.config.enabled = true ∧ c1.config = c.config ∧
        (considerCycle now p m w i).1.cycles = m.cycles.set i c1 ∧
        (considerCycle now p m w i).2.2 = true) := by
  unfold considerCycle
  rcases hx : m.cycles[i]? with _ | c
  · exact Or.inl ⟨rfl, rfl, rfl⟩
  · have hcyc : cycleAt m i = some c := by rw [cycleAt, hx]
    dsimp only
    by_cases hguard : (c.config.priority.toNat ≠ p ∨ c.runtime.state ≠ .active ∨
        c.config.enabled = false)
    · rw [if_pos hguard]
      exact Or.inl ⟨rfl, rfl, rfl⟩
    · rw [if_neg hguard]
      push_neg at hguard
      obtain ⟨hp, hs, he⟩ := hguard
      have he1 : c.config.enabled = true := by
        cases hce : c.config.enabled
        · exact absurd hce he
        · rfl
      cases hmode : c.config.mode
      all_goals dsimp only
      ·
        by_cases ht : hasTimedOut now c.runtime.last_execution c.config.interval_ms
        · rw [if_pos ht]
          exact Or.inr ⟨c, (executeCycle now c w).1, hcyc, hp, hs, he1,
            executeCycle_config now c w, rfl, rfl⟩
        · rw [if_neg ht]
          exact Or.inl ⟨rfl, rfl, rfl⟩
      ·
        by_cases ht : hasTimedOut now c.runtime.last_execution c.config.timeout_ms
        · rw [if_pos ht]
          refine Or.inr ⟨c, _, hcyc, hp, hs, he1, ?_, rfl, rfl⟩
          rw [executeCycle_config]
          by_cases hos : c.config.one_shot
          · rw [if_pos hos]
          · rw [if_neg hos]
        · rw [if_neg ht]
          exact Or.inl ⟨rfl, rfl, rfl⟩
      ·
        rcases hcond : c.config.condition with _ | cond
        · exact Or.inl ⟨rfl, rfl, rfl⟩
        · dsimp only
          by_cases hcw : cond w
          · rw [if_pos hcw]
            exact Or.inr ⟨c, (executeCycle now c w).1, hcyc, hp, hs, he1,
              executeCycle_config now c w, rfl, rfl⟩
          · rw [if_neg hcw]
            exact Or.inl ⟨rfl, rfl, rfl⟩
      ·
        by_cases hpat : (updatePatternCycle now c).1
        · rw [if_pos hpat]
          refine Or.inr ⟨c, _, hcyc, hp, hs, he1, ?_, rfl, rfl⟩
          rw [executeCycle_config, updatePatternCycle_config]
        · rw [if_neg hpat]
          exact Or.inl ⟨rfl, rfl, rfl⟩
      ·
        exact Or.inr ⟨c, (executeCycle now c w).1, hcyc, hp, hs, he1,
          executeCycle_config now c w, rfl, rfl⟩
      ·
        exact Or.inr ⟨c, (executeCycle now c w).1, hcyc, hp, hs, he1,
          executeCycle_config now c w, rfl, rfl⟩

theorem considerCycle_prioAt {W : Type} (now p : Nat) (m : CycleManager W)
    (w : W) (i j : Nat) :
    prioAt (considerCycle now p m w i).1 j = prioAt m j := by
  rcases considerCycle_cases now p m w i with ⟨h1, _, _⟩ |
    ⟨c, c1, hc, _, _, _, hcfg, hset, _⟩
  · rw [h1]
  · unfold prioAt cycleAt
    rw [hset]
    by_cases hij : i = j
    · subst hij
      unfold cycleAt at hc
      obtain ⟨hlt, _⟩ := List.getElem?_eq_some.mp hc
      rw [List.getElem?_set_self hlt, hc]
      simp [hcfg]
    · rw [List.getElem?_set_ne hij]

theorem considerCycle_cycleAt_ne {W : Type} (now p : Nat) (m : CycleManager W)
    (w : W) (i j : Nat) (hne : i ≠ j) :
    cycleAt (considerCycle now p m w i).1 j = cycleAt m j := by
  rcases considerCycle_cases now p m w i with ⟨h1, _, _⟩ |
    ⟨c, c1, _, _, _, _, _, hset, _⟩
  · rw [h1]
  · unfold cycleAt
    rw [hset, List.getElem?_set_ne hne]

theorem considerCycle_not_fired {W : Type} (now p : Nat) (m : CycleManager W)
    (w : W) (i : Nat) (h : (considerCycle now p m w i).2.2 = false) :
    (considerCycle now p m w i).1 = m ∧ (considerCycle now p m w i).2.1 = w := by
  rcases considerCycle_cases now p m w i with ⟨h1, h2, _⟩ |
    ⟨c, c1, _, _, _, _, _, _, hfired⟩
  · exact ⟨h1, h2⟩
  · rw [h] at hfired
    cases hfired

theorem considerCycle_fired {W : Type} (now p : Nat) (m : CycleManager W)
    (w : W) (i : Nat) (h : (considerCycle now p m w i).2.2 = true) :
    ∃ c, cycleAt m i = some c ∧ c.config.priority.toNat = p ∧
      c.runtime.state = .active ∧ c.config.enabled = true := by
  rcases considerCycle_cases now p m w i with ⟨_, _, h3⟩ |
    ⟨c, c1, hc, hp, hs, he, _, _, _⟩
  · rw [h] at h3
    cases h3
  · exact ⟨c, hc, hp, hs, he⟩

theorem passIndices_spec {W : Type} (now p : Nat) (idx : List Nat) :
    ∀ (m : CycleManager W) (w : W), idx.Pairwise (· < ·) →
    (∀ j, prioAt (passIndices now p idx m w).1 j = prioAt m j)
    ∧ (∀ j, prioAt m j ≠ some p →
        cycleAt (passIndices now p idx m w).1 j = cycleAt m j)
    ∧ (passIndices now p idx m w).2.2.Sublist idx
    ∧ (∀ i ∈ (passIndices now p idx m w).2.2, ∃ c, cycleAt m i = some c ∧
        c.config.priority.toNat = p ∧ c.runtime.state = .active ∧
        c.config.enabled = true) := by
  induction idx with
  | nil =>
    intro m w _
    exact ⟨fun j => rfl, fun j _ => rfl, List.Sublist.refl [], by simp [passIndices]⟩
  | cons i rest ih =>
    intro m w hpw
    have hirest : ∀ x ∈ rest, i < x := fun x hx => (List.pairwise_cons.mp hpw).1 x hx
    have hrest : rest.Pairwise (· < ·) := (List.pairwise_cons.mp hpw).2
    obtain ⟨ih1, ih2, ih3, ih4⟩ :=
      ih (considerCycle now p m w i).1 (considerCycle now p m w i).2.1 hrest
    refine ⟨?_, ?_, ?_, ?_⟩
    · intro j
      show prioAt (passIndices now p (i :: rest) m w).1 j = prioAt m j
      unfold passIndices
      rw [ih1 j, considerCycle_prioAt]
    · intro j hj
      show cycleAt (passIndices now p (i :: rest) m w).1 j = cycleAt m j
      unfold passIndices
      rw [ih2 j (by rw [considerCycle_prioAt]; exact hj)]
      by_cases hij : i = j
      · subst hij
        rcases considerCycle_cases now p m w i with ⟨h1, _, _⟩ |
          ⟨c, c1, hc, hp1, _, _, _, _, _⟩
        · rw [h1]
        · exact absurd (by unfold prioAt; rw [hc]; simp [hp1]) hj
      · exact considerCycle_cycleAt_ne now p m w i j hij
    · show (passIndices now p (i :: rest) m w).2.2.Sublist (i :: rest)
      unfold passIndices
      dsimp only
      by_cases hf : (considerCycle now p m w i).2.2
      · rw [hf]
        simpa using List.Sublist.cons₂ i ih3
      · rw [Bool.not_eq_true] at hf
        rw [hf]
        simpa using List.Sublist.cons i ih3
    · intro x hx
      rw [show (passIndices now p (i :: rest) m w).2.2 =
        (if (considerCycle now p m w i).2.2 then [i] else []) ++
          (passIndices now p rest (considerCycle now p m w i).1
            (considerCycle now p m w i).2.1).2.2 from rfl] at hx
      rw [List.mem_append] at hx
      rcases hx with hx | hx
      · by_cases hf : (considerCycle now p m w i).2.2
        · rw [if_pos hf] at hx
          have hxi : x = i := by simpa using hx
          subst hxi
          exact considerCycle_fired now p m w x hf
        · rw [if_neg hf] at hx
          simp at hx
      · obtain ⟨c, hc, hp1, hs1, he1⟩ := ih4 x hx
        have hxrest : x ∈ rest := ih3.mem hx
        have hxi : i ≠ x := Nat.ne_of_lt (hirest x hxrest)
        rw [considerCycle_cycleAt_ne now p m w i x hxi] at hc
        exact ⟨c, hc, hp1, hs1, he1⟩

theorem passPriority_spec {W : Type} (now p : Nat) (m : CycleManager W)
    (w : W) :
    (∀ j, prioAt (passPriority now p m w).1 j = prioAt m j)
    ∧ (∀ j, prioAt m j ≠ some p →
        cycleAt (passPriority now p m w).1 j = cycleAt m j)
    ∧ (passPriority now p m w).2.2.Pairwise (· < ·)
    ∧ (∀ i ∈ (passPriority now p m w).2.2, ∃ c, cycleAt m i = some c ∧
        c.config.priority.toNat = p ∧ c.runtime.state = .active ∧
        c.config.enabled = true) := by
  obtain ⟨h1, h2, h3, h4⟩ := passIndices_spec now p
    (List.range m.cycles.length) m w (List.pairwise_lt_range _)
  exact ⟨h1, h2, (List.pairwise_lt_range _).sublist h3, h4⟩

theorem passIndices_skip {W : Type} (now p : Nat) (idx : List Nat) :
    ∀ (m : CycleManager W) (w : W) (i : Nat) (c : Cycle W),
      cycleAt m i = some c → c.runtime.state ≠ .active →
      i ∉ (passIndices now p idx m w).2.2
      ∧ cycleAt (passIndices now p idx m w).1 i = cycleAt m i := by
  induction idx with
  | nil =>
    intro m w i c hc hs
    exact ⟨by simp [passIndices], rfl⟩
  | cons j rest ih =>
    intro m w i c hc hs
    have hkey : cycleAt (considerCycle now p m w j).1 i = cycleAt m i ∧
        (j = i → (considerCycle now p m w j).2.2 = false) := by
      by_cases hij : j = i
      · subst hij
        rcases considerCycle_cases now p m w j with ⟨h1, _, h3⟩ |
          ⟨c0, c1, hc0, _, hs0, _, _, _, _⟩
        · exact ⟨by rw [h1], fun _ => h3⟩
        · rw [hc0] at hc
          have hcc : c0 = c := by injection hc
          rw [hcc] at hs0
          exact absurd hs0 hs
      · exact ⟨considerCycle_cycleAt_ne now p m w j i hij, fun hx => absurd hx hij⟩
    obtain ⟨hpres, hnofire⟩ := hkey
    obtain ⟨ih1, ih2⟩ := ih (considerCycle now p m w j).1
      (considerCycle now p m w j).2.1 i c (by rw [hpres]; exact hc) hs
    constructor
    · rw [show (passIndices now p (j :: rest) m w).2.2 =
        (if (considerCycle now p m w j).2.2 then [j] else []) ++
          (passIndices now p rest (considerCycle now p m w j).1
            (considerCycle now p m w j).2.1).2.2 from rfl]
      rw [List.mem_append]
      intro hmem
      rcases hmem with hmem | hmem
      · by_cases hf : (considerCycle now p m w j).2.2
        · rw [if_pos hf] at hmem
          have hji : i = j := by simpa using hmem
          rw [hnofire hji.symm] at hf
          cases hf
        · rw [if_neg hf] at hmem
          simp at hmem
      · exact ih1 hmem
    · rw [show (passIndices now p (j :: rest) m w).1 =
        (passIndices now p rest (considerCycle now p m w j).1
          (considerCycle now p m w j).2.1).1 from rfl]
      rw [ih2, hpres]

theorem runPasses_skip {W : Type} (now : Nat) (ps : List Nat) :
    ∀ (m : CycleManager W) (w : W) (i : Nat) (c : Cycle W),
      cycleAt m i = some c → c.runtime.state ≠ .active →
      i ∉ (runPasses now ps m w).2.2
      ∧ cycleAt (runPasses now ps m w).1 i = cycleAt m i := by
  induction ps with
  | nil =>
    intro m w i c hc hs
    exact ⟨by simp [runPasses], rfl⟩
  | cons p ps ih =>
    intro m w i c hc hs
    obtain ⟨h1, h2⟩ := passIndices_skip now p (List.range m.cycles.length)
      m w i c hc hs
    obtain ⟨ih1, ih2⟩ := ih (passPriority now p m w).1
      (passPriority now p m w).2.1 i c (h2.trans hc) hs
    constructor
    · rw [show (runPasses now (p :: ps) m w).2.2 =
        (passPriority now p m w).2.2 ++
          (runPasses now ps (passPriority now p m w).1
            (passPriority now p m w).2.1).2.2 from rfl]
      rw [List.mem_append]
      intro hmem
      rcases hmem with hmem | hmem
      · exact h1 hmem
      · exact ih1 hmem
    · rw [show (runPasses now (p :: ps) m w).1 =
        (runPasses now ps (passPriority now p m w).1
          (passPriority now p m w).2.1).1 from rfl]
      rw [ih2]
      exact h2

theorem updateCycles_skip_nonactive {W : Type} (now : Nat)
    (m : CycleManager W) (w : W) (i : Nat) (c : Cycle W)
    (hc : cycleAt m i = some c) (hs : c.runtime.state ≠ .active) :
    i ∉ (updateCycles now m w).2.2 := by
  unfold updateCycles
  split_ifs with h
  · simp
  · dsimp only
    exact (runPasses_skip now [0, 1, 2, 3, 4] m w i c hc hs).1

theorem runPasses_spec {W : Type} (now : Nat) (ps : List Nat) :
    ∀ (m : CycleManager W) (w : W), ps.Pairwise (· < ·) →
    (∀ j, prioAt (runPasses now ps m w).1 j = prioAt m j)
    ∧ (∀ j, (∀ q ∈ ps, prioAt m j ≠ some q) →
        cycleAt (runPasses now ps m w).1 j = cycleAt m j)
    ∧ (runPasses now ps m w).2.2.Pairwise (ExecBefore m)
    ∧ (∀ i ∈ (runPasses now ps m w).2.2, ∃ c, cycleAt m i = some c ∧
        c.config.priority.toNat ∈ ps ∧ c.runtime.state = .active ∧
        c.config.enabled = true) := by
  induction ps with
  | nil =>
    intro m w _
    exact ⟨fun j => rfl, fun j _ => rfl, List.Pairwise.nil, by simp [runPasses]⟩
  | cons p ps ih =>
    intro m w hpw
    have hps : ps.Pairwise (· < ·) := (List.pairwise_cons.mp hpw).2
    have hplt : ∀ q ∈ ps, p < q := (List.pairwise_cons.mp hpw).1
    obtain ⟨p1, p2, p3, p4⟩ := passPriority_spec now p m w
    obtain ⟨r1, r2, r3, r4⟩ := ih (passPriority now p m w).1
      (passPriority now p m w).2.1 hps
    have hcons1 : (runPasses now (p :: ps) m w).1 =
        (runPasses now ps (passPriority now p m w).1
          (passPriority now p m w).2.1).1 := rfl
    have hcons2 : (runPasses now (p :: ps) m w).2.2 =
        (passPriority now p m w).2.2 ++
          (runPasses now ps (passPriority now p m w).1
            (passPriority now p m w).2.1).2.2 := rfl
    refine ⟨?_, ?_, ?_, ?_⟩
    · intro j
      rw [hcons1, r1 j, p1 j]
    · intro j hj
      rw [hcons1,
        r2 j (fun q hq => by rw [p1 j]; exact hj q (List.mem_cons_of_mem p hq)),
        p2 j (hj p (List.mem_cons_self p ps))]
    · rw [hcons2, List.pairwise_append]
      refine ⟨?_, ?_, ?_⟩
      · refine p3.imp_of_mem ?_
        intro a b ha hb hab
        obtain ⟨ca, hca, hpa, _, _⟩ := p4 a ha
        obtain ⟨cb, hcb, hpb, _, _⟩ := p4 b hb
        refine ⟨p, p, ?_, ?_, Or.inr ⟨rfl, hab⟩⟩
        · unfold prioAt
          rw [hca]
          simp [hpa]
        · unfold prioAt
          rw [hcb]
          simp [hpb]
      · refine r3.imp ?_
        intro a b hab
        obtain ⟨pa, pb, hpa, hpb, hlt⟩ := hab
        exact ⟨pa, pb, by rw [← p1 a]; exact hpa, by rw [← p1 b]; exact hpb, hlt⟩
      · intro a ha b hb
        obtain ⟨ca, hca, hpa, _, _⟩ := p4 a ha
        obtain ⟨cb, hcb, hqmem, _, _⟩ := r4 b hb
        refine ⟨p, cb.config.priority.toNat, ?_, ?_, Or.inl (hplt _ hqmem)⟩
        · unfold prioAt
          rw [hca]
          simp [hpa]
        · rw [← p1 b]
          unfold prioAt
          rw [hcb]
          rfl
    · intro x hx
      rw [hcons2, List.mem_append] at hx
      rcases hx with hx | hx
      · obtain ⟨c, hc, hp0, hs0, he0⟩ := p4 x hx
        exact ⟨c, hc, by rw [hp0]; exact List.mem_cons_self p ps, hs0, he0⟩
      · obtain ⟨c, hc, hmem, hs0, he0⟩ := r4 x hx
        have hq : prioAt m x = some c.config.priority.toNat := by
          rw [← p1 x]
          unfold prioAt
          rw [hc]
          rfl
        have hne : prioAt m x ≠ some p := by
          rw [hq]
          intro hcontra
          have : c.config.priority.toNat = p := by injection hcontra
          exact absurd (this ▸ hplt _ hmem) (Nat.lt_irrefl p)
        rw [p2 x hne] at hc
        exact ⟨c, hc, List.mem_cons_of_mem p hmem, hs0, he0⟩

theorem registerCycle_success {W : Type} (now : Nat) (c : CycleConfig W)
    (m : CycleManager W) (hinit : m.managerInitialized = true)
    (hlen : m.cycles.length < MAX_CYCLES)
    (hname : c.name.isSome = true) (hexec : c.execute.isSome = true) :
    registerCycle now c m =
      (Int.ofNat m.cycles.length,
        { m with cycles := m.cycles ++ [⟨c, mkRuntime c now⟩] }) := by
  have hn : ¬ c.name = none := by
    intro hx
    rw [hx] at hname
    simp at hname
  have he : ¬ c.execute = none := by
    intro hx
    rw [hx] at hexec
    simp at hexec
  unfold registerCycle
  rw [if_neg (by simp [hinit]), if_neg (by omega),
    if_neg (by simp [Option.isNone_iff_eq_none, hn, he])]

theorem registerCycle_full {W : Type} (now : Nat) (c : CycleConfig W)
    (m : CycleManager W) (hlen : MAX_CYCLES ≤ m.cycles.length) :
    registerCycle now c m = (-1, m) := by
  unfold registerCycle
  split_ifs <;> rfl

theorem registerCycle_invalid {W : Type} (now : Nat) (c : CycleConfig W)
    (m : CycleManager W) (hbad : c.name.isNone || c.execute.isNone) :
    registerCycle now c m = (-1, m) := by
  unfold registerCycle
  split_ifs <;> rfl

theorem registerAll_nil {W : Type} (now : Nat) (m : CycleManager W) :
    registerAll now ([] : List (CycleConfig W)) m = ([], m) := rfl

theorem registerAll_cons {W : Type} (now : Nat) (c : CycleConfig W)
    (l : List (CycleConfig W)) (m : CycleManager W) :
    registerAll now (c :: l) m =
      ((registerCycle now c m).1 ::
          (registerAll now l (registerCycle now c m).2).1,
        (registerAll now l (registerCycle now c m).2).2) := rfl

theorem registerAll_success {W : Type} (now : Nat)
    (cfgs : List (CycleConfig W)) :
    ∀ m : CycleManager W, m.managerInitialized = true →
    (∀ c ∈ cfgs, c.name.isSome = true ∧ c.execute.isSome = true) →
    m.cycles.length + cfgs.length ≤ MAX_CYCLES →
    (registerAll now cfgs m).1 =
        (List.range' m.cycles.length cfgs.length).map Int.ofNat
    ∧ (registerAll now cfgs m).2.cycles.length = m.cycles.length + cfgs.length
    ∧ (registerAll now cfgs m).2.managerInitialized = true
    ∧ ∀ j < m.cycles.length,
        (registerAll now cfgs m).2.cycles[j]? = m.cycles[j]? := by
  induction cfgs with
  | nil =>
    intro m hinit _ _
    exact ⟨rfl, rfl, hinit, fun j _ => rfl⟩
  | cons c rest ih =>
    intro m hinit hv hcap
    have hc := hv c (List.mem_cons_self c rest)
    have hlen : m.cycles.length < MAX_CYCLES := by
      simp [List.length_cons] at hcap
      omega
    have hr := registerCycle_success now c m hinit hlen hc.1 hc.2
    have hm1len :
        (m.cycles ++ [(⟨c, mkRuntime c now⟩ : Cycle W)]).length =
          m.cycles.length + 1 := by simp
    have ihm := ih { m with cycles := m.cycles ++ [⟨c, mkRuntime c now⟩] }
      hinit (fun c1 hc1 => hv c1 (List.mem_cons_of_mem c hc1))
      (by simp at hcap ⊢; omega)
    obtain ⟨ih1, ih2, ih3, ih4⟩ := ihm
    refine ⟨?_, ?_, ?_, ?_⟩
    · rw [registerAll_cons, hr]
      dsimp only
      rw [ih1]
      dsimp only
      rw [hm1len, List.length_cons, List.range'_succ]
      simp
    · rw [registerAll_cons, hr]
      dsimp only
      rw [ih2]
      dsimp only
      rw [hm1len, List.length_cons]
      omega
    · rw [registerAll_cons, hr]
      dsimp only
      exact ih3
    · intro j hj
      rw [registerAll_cons, hr]
      dsimp only
      rw [ih4 j (by dsimp only; rw [hm1len]; omega)]
      dsimp only
      exact List.getElem?_append_left hj

theorem registerAll_append {W : Type} (now : Nat) (as bs : List (CycleConfig W)) :
    ∀ m : CycleManager W,
    registerAll now (as ++ bs) m =
      ((registerAll now as m).1 ++ (registerAll now bs (registerAll now as m).2).1,
        (registerAll now bs (registerAll now as m).2).2) := by
  induction as with
  | nil => intro m; rfl
  | cons c rest ih =>
    intro m
    rw [List.cons_append, registerAll_cons, ih, registerAll_cons]
    simp

/-- C6: from an initialized empty manager, 32 valid registrations return
ids 0, 1, …, 31; the 33rd returns −1 and leaves the registry (count and
every registered cycle) unchanged; and a registration with a missing
name or execute callback returns −1 and changes nothing. -/
theorem C6_registration_capacity (W : Type) (now now0 : Nat)
    (cfgs : List (CycleConfig W)) (h33 : cfgs.length = MAX_CYCLES + 1)
    (hv : ∀ c ∈ cfgs, c.name.isSome = true ∧ c.execute.isSome = true) :
    (registerAll now cfgs (initialManager W now0)).1 =
        (List.range MAX_CYCLES).map Int.ofNat ++ [-1]
    ∧ (registerAll now cfgs (initialManager W now0)).2 =
        (registerAll now (cfgs.take MAX_CYCLES) (initialManager W now0)).2
    ∧ ∀ (m : CycleManager W) (c : CycleConfig W),
        c.name.isNone || c.execute.isNone → registerCycle now c m = (-1, m) := by
  have hsplit : cfgs = cfgs.take MAX_CYCLES ++ cfgs.drop MAX_CYCLES :=
    (List.take_append_drop MAX_CYCLES cfgs).symm
  have htlen : (cfgs.take MAX_CYCLES).length = MAX_CYCLES := by
    simp [List.length_take, h33]
  have hdlen : (cfgs.drop MAX_CYCLES).length = 1 := by
    simp [List.length_drop, h33]
  obtain ⟨c32, hc32⟩ := List.length_eq_one.mp hdlen
  have hvt : ∀ c ∈ cfgs.take MAX_CYCLES,
      c.name.isSome = true ∧ c.execute.isSome = true :=
    fun c hc => hv c (List.mem_of_mem_take hc)
  have hra := registerAll_success now (cfgs.take MAX_CYCLES)
    (initialManager W now0) rfl hvt (by simp [initialManager, htlen])
  obtain ⟨hids, hlen32, hinit2, _⟩ := hra
  have hfull := registerCycle_full now c32
    (registerAll now (cfgs.take MAX_CYCLES) (initialManager W now0)).2
    (by rw [hlen32, htlen]; simp [initialManager])
  refine ⟨?_, ?_, ?_⟩
  · conv_lhs => rw [hsplit]
    rw [registerAll_append, hc32, registerAll_cons, hfull]
    dsimp only
    rw [registerAll_nil]
    dsimp only
    rw [hids, htlen]
    simp [initialManager, List.range_eq_range']
  · conv_lhs => rw [hsplit]
    rw [registerAll_append, hc32, registerAll_cons, hfull]
    dsimp only
    rw [registerAll_nil]
  · intro m c hbad
    exact registerCycle_invalid now c m hbad

/-- C6 witness: 33 copies of a valid configuration. -/
theorem C6_registration_capacity_witness :
    (registerAll 0 (List.replicate 33 plainCfg) (initialManager Unit 0)).1 =
        (List.range 32).map Int.ofNat ++ [-1]
    ∧ (registerAll 0 (List.replicate 33 plainCfg) (initialManager Unit 0)).2 =
        (registerAll 0 ((List.replicate 33 plainCfg).take 32)
          (initialManager Unit 0)).2
    ∧ ∀ (m : CycleManager Unit) (c : CycleConfig Unit),
        c.name.isNone || c.execute.isNone → registerCycle 0 c m = (-1, m) :=
  C6_registration_capacity Unit 0 0 (List.replicate 33 plainCfg)
    (by simp [MAX_CYCLES])
    (by
      intro c hc
      rw [List.eq_of_mem_replicate hc]
      exact ⟨rfl, rfl⟩)

/-- C7: within one update pass the invoked callbacks run in strictly
increasing (priority class, registration id) order — priority classes in
Critical, High, Normal, Low, Background order, ties broken by
registration order — no cycle's callback is invoked twice in a pass, and
only Active, enabled cycles are invoked. -/
theorem C7_priority_ordering {W : Type} (now : Nat) (m : CycleManager W)
    (w : W) :
    (updateCycles now m w).2.2.Pairwise (ExecBefore m)
    ∧ (updateCycles now m w).2.2.Nodup
    ∧ ∀ i ∈ (updateCycles now m w).2.2, ∃ c, cycleAt m i = some c ∧
        c.runtime.state = .active ∧ c.config.enabled = true := by
  have htrace : (updateCycles now m w).2.2 =
      (if m.managerInitialized = false then []
        else (runPasses now [0, 1, 2, 3, 4] m w).2.2) := by
    unfold updateCycles
    split_ifs <;> rfl
  by_cases hinit : m.managerInitialized = false
  · rw [htrace, if_pos hinit]
    exact ⟨List.Pairwise.nil, List.nodup_nil, by simp⟩
  · rw [htrace, if_neg hinit]
    obtain ⟨_, _, h3, h4⟩ := runPasses_spec now [0, 1, 2, 3, 4] m w (by decide)
    refine ⟨h3, ?_, ?_⟩
    · refine List.Pairwise.imp ?_ h3
      intro a b hab
      obtain ⟨pa, pb, hpa, hpb, hor⟩ := hab
      intro hEq
      subst hEq
      rw [hpa] at hpb
      have hpp : pa = pb := by injection hpb
      subst hpp
      rcases hor with hlt | ⟨_, hlt⟩
      · exact Nat.lt_irrefl _ hlt
      · exact Nat.lt_irrefl _ hlt
    · intro i hi
      obtain ⟨c, hc, _, hs, he⟩ := h4 i hi
      exact ⟨c, hc, hs, he⟩

/-- C1 (amended): when a callback signals an error, that cycle's
`error_count` is incremented, its state is set to Error, its error
handler (if present) is invoked, and its configuration — including
`enabled` — is unchanged; but contrary to the claim the cycle is not
re-evaluated afterwards: `updateCycles` only considers Active cycles, so
a cycle whose state is Error is skipped by every subsequent pass until
it is externally reset. -/
theorem C1_error_handling {W : Type} (now : Nat) (c : Cycle W) (w w1 : W)
    (f : W → Except W W) (hf : c.config.execute = some f)
    (herr : f w = .error w1) :
    (executeCycle now c w).1.runtime.error_count = c.runtime.error_count + 1
    ∧ (executeCycle now c w).1.runtime.state = .error
    ∧ (executeCycle now c w).2.1 =
        (match c.config.on_error with
          | some h => h w1
          | none => w1)
    ∧ (executeCycle now c w).1.config = c.config
    ∧ ∀ (m : CycleManager W) (v : W) (now1 i : Nat) (c1 : Cycle W),
        cycleAt m i = some c1 → c1.runtime.state = .error →
        i ∉ (updateCycles now1 m v).2.2 := by
  have hexec : executeCycle now c w =
      ({ c with runtime := { c.runtime with
            error_count := c.runtime.error_count + 1
            state := .error } },
        (match c.config.on_error with
          | some h => h w1
          | none => w1), false) := by
    unfold executeCycle
    rw [hf]
    dsimp only
    rw [herr]
  refine ⟨?_, ?_, ?_, executeCycle_config now c w, ?_⟩
  · rw [hexec]
  · rw [hexec]
  · rw [hexec]
  · intro m v now1 i c1 hc1 hs1
    exact updateCycles_skip_nonactive now1 m v i c1 hc1 (by simp [hs1])

/-- C1 witness: the always-erroring condition cycle over a counter
world. -/
theorem C1_error_handling_witness :
    (executeCycle 0 failingCycle 0).1.runtime.error_count =
        failingCycle.runtime.error_count + 1
    ∧ (executeCycle 0 failingCycle 0).1.runtime.state = .error
    ∧ (executeCycle 0 failingCycle 0).2.1 =
        (match failingCycle.config.on_error with
          | some h => h 0
          | none => 0)
    ∧ (executeCycle 0 failingCycle 0).1.config = failingCycle.config
    ∧ ∀ (m : CycleManager Nat) (v : Nat) (now1 i : Nat) (c1 : Cycle Nat),
        cycleAt m i = some c1 → c1.runtime.state = .error →
        i ∉ (updateCycles now1 m v).2.2 :=
  C1_error_handling 0 failingCycle 0 0 (fun w => Except.error w) rfl rfl

/-- C1 counterexample: one always-eligible condition cycle whose callback
errors.  The first pass invokes it — error handler runs (world 0 → 1),
`error_count` becomes 1, state becomes Error, `enabled` stays true — but
the next pass invokes nothing, although the trigger condition still
holds: the claim's "its callback is invoked again" is false on the
code. -/
theorem C1_counterexample :
    (updateCycles 0 failingMgr 0).2.2 = [0]
    ∧ getCycleState 0 (updateCycles 0 failingMgr 0).1 = .error
    ∧ (getCycleStats 0 (updateCycles 0 failingMgr 0).1).map
        CycleRuntime.error_count = some 1
    ∧ (updateCycles 0 failingMgr 0).2.1 = 1
    ∧ (cycleAt (updateCycles 0 failingMgr 0).1 0).map
        (fun c => c.config.enabled) = some true
    ∧ getCycleState 0 failingMgr = .active
    ∧ (updateCycles 1 (updateCycles 0 failingMgr 0).1
        (updateCycles 0 failingMgr 0).2.1).2.2 = [] :=
  ⟨rfl, rfl, rfl, rfl, rfl, rfl, rfl⟩

/-- C8 (amended): a Pattern-mode cycle with a non-empty pattern fires
exactly on those `update()` passes where its current step's duration has
elapsed — on firing the step index advances by one (wrapping) and the
step start is rebased to now — and on all other passes it does not fire
and is left untouched; inside a pass its callback is invoked exactly when
`updatePatternCycle` reports a fire, not on every pass. -/
theorem C8_pattern_step_semantics {W : Type} (now : Nat) (c : Cycle W)
    (hne : c.config.pattern ≠ []) :
    ((updatePatternCycle now c).1 = true ↔
      (c.config.pattern.getD c.runtime.pattern_step defaultStep).duration_ms ≤
        getElapsedTime now c.runtime.pattern_step_start)
    ∧ ((updatePatternCycle now c).1 = true →
        (updatePatternCycle now c).2.runtime.pattern_step =
          (c.runtime.pattern_step + 1) % c.config.pattern.length
        ∧ (updatePatternCycle now c).2.runtime.pattern_step_start = now)
    ∧ ((updatePatternCycle now c).1 = false → (updatePatternCycle now c).2 = c)
    ∧ ∀ (p : Nat) (m : CycleManager W) (w : W) (i : Nat),
        cycleAt m i = some c → c.config.mode = .pattern →
        c.config.priority.toNat = p → c.runtime.state = .active →
        c.config.enabled = true →
        (considerCycle now p m w i).2.2 = (updatePatternCycle now c).1 := by
  have hemp : c.config.pattern.isEmpty = false := by
    cases hp : c.config.pattern
    · exact absurd hp hne
    · rfl
  have hupc : updatePatternCycle now c =
      (if (c.config.pattern.getD c.runtime.pattern_step defaultStep).duration_ms ≤
          getElapsedTime now c.runtime.pattern_step_start then
        (true, { c with runtime := { c.runtime with
            pattern_step := (c.runtime.pattern_step + 1) % c.config.pattern.length
            pattern_step_start := now
            pattern_step_active := (c.config.pattern.getD
              ((c.runtime.pattern_step + 1) % c.config.pattern.length)
              defaultStep).active } })
      else (false, c)) := by
    unfold updatePatternCycle
    rw [if_neg (by simp [hemp])]
  refine ⟨?_, ?_, ?_, ?_⟩
  · rw [hupc]
    split_ifs with hd
    · exact ⟨fun _ => hd, fun _ => rfl⟩
    · exact ⟨fun hx => absurd hx (by decide), fun hcond => absurd hcond hd⟩
  · rw [hupc]
    split_ifs with hd
    · intro _
      exact ⟨rfl, rfl⟩
    · intro hx
      cases hx
  · rw [hupc]
    split_ifs with hd
    · intro hx
      cases hx
    · intro _
      rfl
  · intro p m w i hc hmode hpri hst hen
    unfold considerCycle
    unfold cycleAt at hc
    rw [hc]
    dsimp only
    rw [if_neg (by simp [hpri, hst, hen])]
    rw [hmode]
    dsimp only
    by_cases hb : (updatePatternCycle now c).1
    · rw [if_pos hb, hb]
    · rw [Bool.not_eq_true] at hb
      rw [hb]
      rfl

/-- C8 witness: the single-step 100 ms pattern cycle at `now = 100`. -/
theorem C8_pattern_step_semantics_witness :
    (((updatePatternCycle 100 patternCycle).1 = true ↔
      (patternCycle.config.pattern.getD patternCycle.runtime.pattern_step
          defaultStep).duration_ms ≤
        getElapsedTime 100 patternCycle.runtime.pattern_step_start))
    ∧ ((updatePatternCycle 100 patternCycle).1 = true →
        (updatePatternCycle 100 patternCycle).2.runtime.pattern_step =
          (patternCycle.runtime.pattern_step + 1) %
            patternCycle.config.pattern.length
        ∧ (updatePatternCycle 100 patternCycle).2.runtime.pattern_step_start =
            100)
    ∧ ((updatePatternCycle 100 patternCycle).1 = false →
        (updatePatternCycle 100 patternCycle).2 = patternCycle)
    ∧ ∀ (p : Nat) (m : CycleManager Unit) (w : Unit) (i : Nat),
        cycleAt m i = some patternCycle →
        patternCycle.config.mode = .pattern →
        patternCycle.config.priority.toNat = p →
        patternCycle.runtime.state = .active →
        patternCycle.config.enabled = true →
        (considerCycle 100 p m w i).2.2 = (updatePatternCycle 100 patternCycle).1 :=
  C8_pattern_step_semantics 100 patternCycle (by decide)

/-- C8 counterexample: the registered pattern cycle (single 100 ms step)
is Active and enabled with a non-empty pattern, yet the update pass at
`now = 50` — before the step's duration has elapsed — invokes no
callback; it fires only at `now = 100`.  The claim's "fires on every
update() call while the pattern is active" is false on the code. -/
theorem C8_counterexample :
    ((cycleAt patternMgr 0).map fun c => c.runtime.state) = some .active
    ∧ ((cycleAt patternMgr 0).map fun c => c.config.enabled) = some true
    ∧ ((cycleAt patternMgr 0).map fun c => c.config.pattern.length) = some 1
    ∧ (updateCycles 50 patternMgr ()).2.2 = []
    ∧ (updateCycles 100 patternMgr ()).2.2 = [0] :=
  ⟨rfl, rfl, rfl, rfl, rfl⟩

end Esp32CamFw
